import Mathlib

/-!
Shallow embedding of `lab-2/location.py`: the `Location` record, the
`LocationDatabase` bulk builder `generate_from_df`, graph generation and
temporal snapshots, together with proofs of the specification claims.

Python cell values are modelled by `Val` (a rational number or a string),
a pandas dataframe by its list of present column names plus its rows
(each row a total assignment of values to column names; only the columns
listed in `cols` count as present, accessing any other raises `KeyError`).
-/

/-- A cell value of the input table: a number or a string. -/
inductive Val where
  | num (q : ℚ)
  | str (s : String)
deriving DecidableEq, Repr

/-- Order `Val` by viewing it inside the lexicographic sum `ℚ ⊕ₗ String`. -/
def Val.toLexSum : Val → ℚ ⊕ₗ String
  | num q => toLex (Sum.inl q)
  | str s => toLex (Sum.inr s)

theorem Val.toLexSum_injective : Function.Injective Val.toLexSum := by
  intro a b h
  cases a <;> cases b <;>
    simp only [Val.toLexSum, toLex_inj, Sum.inl.injEq, Sum.inr.injEq, reduceCtorEq] at h <;>
    simp [h]

instance : LinearOrder Val := LinearOrder.lift' Val.toLexSum Val.toLexSum_injective

/-- Python exceptions that the embedded code can raise. -/
inductive PyErr where
  | keyError
  | indexError
deriving DecidableEq, Repr

/-- A dataframe: the list of present column names and the rows.  A row is a
total function from column names to values, but only the columns in `cols`
are really present: reading any other column raises `KeyError`. -/
structure DataFrame where
  cols : List String
  rows : List (String → Val)

/-- `df[c]` for a whole column: the values of column `c` in row order,
`KeyError` when the column is absent. -/
def DataFrame.column (df : DataFrame) (c : String) : Except PyErr (List Val) :=
  if c ∈ df.cols then .ok (df.rows.map (fun r => r c)) else .error .keyError

/-- `row[c]` for a single row of `df`: `KeyError` when the column is absent. -/
def DataFrame.cell (df : DataFrame) (r : String → Val) (c : String) : Except PyErr Val :=
  if c ∈ df.cols then .ok (r c) else .error .keyError

/-- `Location` from `location.py`: index, name, coordinate pair and the
time-stamped trace tuples (each tuple modelled as a list of values, the
timestamp first). -/
structure Location where
  index : Nat
  name : Val
  coordinates : Val × Val
  traces : List (List Val)
deriving DecidableEq, Repr

instance : Inhabited Location :=
  ⟨{ index := 0, name := Val.num 0, coordinates := (Val.num 0, Val.num 0), traces := [] }⟩

/-- Python list indexing `l[i]` with an `int` index: negative indices count
from the end, out-of-range indices raise `IndexError` (`none`). -/
def pyGet {α : Type} (l : List α) (i : Int) : Option α :=
  if 0 ≤ i then l.get? i.toNat
  else if (-i).toNat ≤ l.length then l.get? (l.length - (-i).toNat) else none

/-- A Python list comprehension `[f x for x in l]` whose body may raise:
elements are produced left to right and the first exception aborts. -/
def mapOption {α β : Type} (f : α → Option β) : List α → Option (List β)
  | [] => some []
  | a :: l =>
    match f a with
    | none => none
    | some b =>
      match mapOption f l with
      | none => none
      | some bs => some (b :: bs)

/-- Row-by-row application (`location.apply(..., axis=1)`) whose body may
raise: rows are processed in order and the first exception aborts. -/
def mapExcept {α β : Type} (f : α → Except PyErr β) : List α → Except PyErr (List β)
  | [] => .ok []
  | a :: l =>
    match f a with
    | .error e => .error e
    | .ok b =>
      match mapExcept f l with
      | .error e => .error e
      | .ok bs => .ok (b :: bs)

/-- `geopy.distance.distance(left, right).m`: the external geodesic distance
provider, modelled as a parameter taking two coordinate pairs to metres. -/
def Location.distance (geo : Val × Val → Val × Val → ℚ) (self other : Location) : ℚ :=
  geo self.coordinates other.coordinates

/-- `get_trace_values`: `[[value[1], value[2]] for value in self.traces]`. -/
def Location.get_trace_values (self : Location) : Option (List (List Val)) :=
  mapOption
    (fun value =>
      match value.get? 1 with
      | none => none
      | some a =>
        match value.get? 2 with
        | none => none
        | some b => some [a, b])
    self.traces

/-- `get_trace_time`: `[value[0] for value in self.traces]`. -/
def Location.get_trace_time (self : Location) : Option (List Val) :=
  mapOption (fun value => value.get? 0) self.traces

/-- The sort key `lambda x: x[0]` (all tuples built by the code are
non-empty, where `headD` coincides with `x[0]`). -/
def timeKey (value : List Val) : Val := value.headD (Val.num 0)

/-- The comparison induced by the sort key: `x[0] <= y[0]`. -/
def keyLe (a b : List Val) : Prop := timeKey a ≤ timeKey b

instance : DecidableRel keyLe := fun a b => inferInstanceAs (Decidable (timeKey a ≤ timeKey b))

instance : IsTotal (List Val) keyLe := ⟨fun a b => le_total (timeKey a) (timeKey b)⟩

instance : IsTrans (List Val) keyLe := ⟨fun _ _ _ h h' => le_trans h h'⟩

/-- `values.sort(key=lambda x: x[0])`: Python's stable sort by timestamp;
a stable sort is uniquely determined, so insertion sort by the key models it. -/
def sortByTime (values : List (List Val)) : List (List Val) :=
  List.insertionSort keyLe values

/-- `pd.Series.unique`: the distinct values, in order of first appearance. -/
def uniqueFirst : List Val → List Val
  | [] => []
  | v :: vs => v :: (uniqueFirst vs).filter (fun w => !(w == v))

namespace LocationDatabase

/-- `LocationDatabase.get_location_full`: select the rows whose `NAME`
matches, read the coordinates off the first such row, build the
`(ABS_TIME, NBBIKES, NBEMPTYDOCKS)` tuple of every matching row and sort
the tuples by timestamp. -/
def get_location_full (df : DataFrame) (name : Val) (index : Nat) :
    Except PyErr Location :=
  match df.column "NAME" with
  | .error e => .error e
  | .ok _ =>
    match df.rows.filter (fun r => r "NAME" == name) with
    | [] => .error .indexError
    | row :: rest =>
      match df.cell row "LAT" with
      | .error e => .error e
      | .ok lat =>
        match df.cell row "LONG" with
        | .error e => .error e
        | .ok lng =>
          match mapExcept
              (fun r =>
                match df.cell r "ABS_TIME" with
                | .error e => .error e
                | .ok t =>
                  match df.cell r "NBBIKES" with
                  | .error e => .error e
                  | .ok b =>
                    match df.cell r "NBEMPTYDOCKS" with
                    | .error e => .error e
                    | .ok d => .ok [t, b, d])
              (row :: rest) with
          | .error e => .error e
          | .ok values =>
            .ok { index := index, name := name, coordinates := (lat, lng),
                  traces := sortByTime values }

/-- The `for n, name in enumerate(location_names)` loop of
`generate_from_df`: build each location in turn and append it to `db`;
an exception aborts the loop, keeping what was appended so far. -/
def buildLoop (df : DataFrame) :
    List Location → List Val → Nat → List Location × Option PyErr
  | db, [], _ => (db, none)
  | db, name :: rest, n =>
    match get_location_full df name n with
    | .error e => (db, some e)
    | .ok loc => buildLoop df (db ++ [loc]) rest (n + 1)

/-- `generate_from_df`: enumerate the distinct station names in order of
first appearance and append one `Location` per name to `db`.  The pair
returned is the final `db` together with the exception, if one was raised. -/
def generate_from_df (db : List Location) (df : DataFrame) :
    List Location × Option PyErr :=
  match df.column "NAME" with
  | .error e => (db, some e)
  | .ok names => buildLoop df db (uniqueFirst names) 0

/-- `generate_graph`: the single fully-connected weighted graph, one edge
record `[left.index, right.index, left.distance(right)]` for every ordered
pair of positions of `db`. -/
def generate_graph (geo : Val × Val → Val × Val → ℚ) (db : List Location) :
    List (List (Nat × Nat × ℚ)) :=
  [(List.range db.length).flatMap (fun l_idx =>
    (List.range db.length).map (fun r_idx =>
      ((db.getD l_idx default).index, (db.getD r_idx default).index,
        Location.distance geo (db.getD l_idx default) (db.getD r_idx default))))]

/-- `get_traces`: the trace values of every location, in `db` order. -/
def get_traces (db : List Location) : Option (List (List (List Val))) :=
  mapOption Location.get_trace_values db

/-- `get_temporal_snapshot`: `[location[time] for location in result]`.
The `db` argument is the receiver `self`; the body never reads it. -/
def get_temporal_snapshot {α : Type} (_db : List Location)
    (result : List (List α)) (time : Int) : Option (List α) :=
  mapOption (fun location => pyGet location time) result

/-- The row-tuple builder used inside `get_location_full`. -/
def tupleOfRow (df : DataFrame) (r : String → Val) : Except PyErr (List Val) :=
  match df.cell r "ABS_TIME" with
  | .error e => .error e
  | .ok t =>
    match df.cell r "NBBIKES" with
    | .error e => .error e
    | .ok b =>
      match df.cell r "NBEMPTYDOCKS" with
      | .error e => .error e
      | .ok d => .ok [t, b, d]


end LocationDatabase

/-- Position of the first occurrence of `x` in `l` (used to state the
first-appearance ordering of the database). -/
def firstIdx : List Val → Val → Nat
  | [], _ => 0
  | v :: vs, x => if v = x then 0 else firstIdx vs x + 1

/-- The trace tuple a single row contributes. -/
def rowTuple (r : String → Val) : List Val :=
  [r "ABS_TIME", r "NBBIKES", r "NBEMPTYDOCKS"]

/-- The tuples `(ABS_TIME, NBBIKES, NBEMPTYDOCKS)` of the rows of `df`
whose `NAME` matches, in row order (the unsorted per-station trace). -/
def stationTuples (df : DataFrame) (name : Val) : List (List Val) :=
  (df.rows.filter (fun r => r "NAME" == name)).map rowTuple

/-- The columns `location.py` reads from the dataframe. -/
def requiredCols : List String :=
  ["NAME", "LAT", "LONG", "ABS_TIME", "NBBIKES", "NBEMPTYDOCKS"]

/-! ### Concrete inputs used by the witnesses and counterexamples -/

/-- A row of the sample table: station name, coordinates, timestamp and
the two occupancy metrics. -/
def mkRow (name : String) (lat lng t bikes docks : ℚ) : String → Val := fun c =>
  if c = "NAME" then Val.str name
  else if c = "LAT" then Val.num lat
  else if c = "LONG" then Val.num lng
  else if c = "ABS_TIME" then Val.num t
  else if c = "NBBIKES" then Val.num bikes
  else Val.num docks

/-- Sample table: stations first appearing in order A, B, C, with station
A's rows out of timestamp order. -/
def dfABC : DataFrame :=
  { cols := requiredCols,
    rows := [mkRow "A" 10 20 3 5 7, mkRow "B" 11 21 1 6 8,
             mkRow "A" 10 20 1 4 9, mkRow "C" 12 22 1 1 2] }

/-- The location the sample build produces for station A. -/
def locA : Location :=
  { index := 0, name := Val.str "A", coordinates := (Val.num 10, Val.num 20),
    traces := [[Val.num 1, Val.num 4, Val.num 9], [Val.num 3, Val.num 5, Val.num 7]] }

/-- A table with rows but only a `NAME` column. -/
def dfOnlyName : DataFrame := { cols := ["NAME"], rows := [mkRow "A" 10 20 3 5 7] }

/-- A table missing the `LAT` column that also has no rows at all. -/
def dfNoRows : DataFrame := { cols := ["NAME"], rows := [] }

/-- A location whose trace tuples carry a single metric (arity 1). -/
def locArity1 : Location :=
  { index := 0, name := Val.str "A", coordinates := (Val.num 0, Val.num 0),
    traces := [[Val.num 0, Val.num 5]] }

/-- A location whose trace tuples carry two metrics (arity 2). -/
def locArity2 : Location :=
  { index := 3, name := Val.str "D", coordinates := (Val.num 1, Val.num 2),
    traces := [[Val.num 1, Val.num 10, Val.num 20], [Val.num 2, Val.num 11, Val.num 21]] }

/-- A concrete geodesic provider for the witnesses: distance 0 between
equal coordinate pairs and 1 otherwise (symmetric, zero on the diagonal). -/
def geoW : Val × Val → Val × Val → ℚ := fun p q => if p = q then 0 else 1

/-- A concrete two-station database for the snapshot witness. -/
def dbWpair : List Location :=
  [{ index := 0, name := Val.str "A", coordinates := (Val.num 10, Val.num 20), traces := [] },
   { index := 1, name := Val.str "B", coordinates := (Val.num 11, Val.num 21), traces := [] }]

/-- A concrete three-station database for the graph witness. -/
def dbW : List Location :=
  [{ index := 0, name := Val.str "A", coordinates := (Val.num 10, Val.num 20), traces := [] },
   { index := 1, name := Val.str "B", coordinates := (Val.num 11, Val.num 21), traces := [] },
   { index := 2, name := Val.str "C", coordinates := (Val.num 12, Val.num 22), traces := [] }]

/-! ### Lemmas on `uniqueFirst` and `firstIdx` -/

theorem mem_uniqueFirst : ∀ l : List Val, ∀ x : Val, x ∈ uniqueFirst l ↔ x ∈ l := by
  intro l
  induction l with
  | nil => simp [uniqueFirst]
  | cons v vs ih =>
    intro x
    rw [uniqueFirst]
    simp only [List.mem_cons, List.mem_filter, ih, Bool.not_eq_eq_eq_not, Bool.not_true,
      beq_eq_false_iff_ne, ne_eq]
    rcases eq_or_ne x v with rfl | hne
    · simp
    · simp [hne]

theorem uniqueFirst_nodup : ∀ l : List Val, (uniqueFirst l).Nodup := by
  intro l
  induction l with
  | nil => simp [uniqueFirst]
  | cons v vs ih =>
    rw [uniqueFirst]
    refine List.nodup_cons.mpr ⟨?_, ih.filter _⟩
    intro hv
    simp [List.mem_filter] at hv

theorem uniqueFirst_cons (v : Val) (vs : List Val) :
    uniqueFirst (v :: vs) = v :: (uniqueFirst vs).filter (fun w => !(w == v)) := by
  rw [uniqueFirst]

theorem firstIdx_cons_self (w : Val) (vs : List Val) : firstIdx (w :: vs) w = 0 := by
  simp [firstIdx]

theorem firstIdx_cons_of_ne (w : Val) (vs : List Val) (x : Val) (h : w ≠ x) :
    firstIdx (w :: vs) x = firstIdx vs x + 1 := by
  simp [firstIdx, h]

/-- `uniqueFirst` lists values in strictly increasing order of first
occurrence in the original list. -/
theorem uniqueFirst_pairwise_firstIdx :
    ∀ l : List Val, List.Pairwise (fun a b => firstIdx l a < firstIdx l b) (uniqueFirst l) := by
  intro l
  induction l with
  | nil => simp [uniqueFirst]
  | cons v vs ih =>
    rw [uniqueFirst]
    refine List.pairwise_cons.mpr ⟨?_, ?_⟩
    · intro b hb
      have hbv : b ≠ v := by
        have := (List.mem_filter.mp hb).2
        simpa using this
      rw [firstIdx_cons_self, firstIdx_cons_of_ne v vs b (Ne.symm hbv)]
      exact Nat.succ_pos _
    · refine List.Pairwise.imp_of_mem ?_ (ih.filter _)
      intro a b ha hb hlt
      have hav : a ≠ v := by
        have := (List.mem_filter.mp ha).2
        simpa using this
      have hbv : b ≠ v := by
        have := (List.mem_filter.mp hb).2
        simpa using this
      rw [firstIdx_cons_of_ne v vs a (Ne.symm hav),
        firstIdx_cons_of_ne v vs b (Ne.symm hbv)]
      exact Nat.succ_lt_succ hlt

/-! ### Lemmas on the stable sort by timestamp -/

theorem sortByTime_sorted (l : List (List Val)) :
    List.Sorted keyLe (sortByTime l) :=
  List.sorted_insertionSort keyLe l

theorem mem_sortByTime {l : List (List Val)} {x : List Val} :
    x ∈ sortByTime l ↔ x ∈ l :=
  List.mem_insertionSort keyLe

theorem filter_key_orderedInsert (k : Val) (a : List Val) :
    ∀ l : List (List Val),
      (List.orderedInsert keyLe a l).filter (fun v => timeKey v == k) =
        if timeKey a == k then a :: l.filter (fun v => timeKey v == k)
        else l.filter (fun v => timeKey v == k) := by
  intro l
  induction l with
  | nil =>
    by_cases h : (timeKey a == k) = true <;>
      simp [List.orderedInsert, List.filter_cons, h]
  | cons b l ih =>
    by_cases hab : keyLe a b
    · rw [List.orderedInsert_of_le keyLe l hab, List.filter_cons]
    · rw [List.orderedInsert, if_neg hab, List.filter_cons, ih]
      by_cases hpa : (timeKey a == k) = true
      · have hba : timeKey b < timeKey a := lt_of_not_le hab
        have hak : timeKey a = k := by simpa using hpa
        have hpb : (timeKey b == k) = false := by
          have hne : timeKey b ≠ k := hak ▸ ne_of_lt hba
          simpa using hne
        simp [List.filter_cons, hpa, hpb]
      · have hpa' : (timeKey a == k) = false := by simpa using hpa
        simp [List.filter_cons, hpa']

/-- Stability of the timestamp sort: rows with any fixed timestamp keep
their original relative order. -/
theorem filter_key_sortByTime (k : Val) :
    ∀ l : List (List Val),
      (sortByTime l).filter (fun v => timeKey v == k) =
        l.filter (fun v => timeKey v == k) := by
  intro l
  induction l with
  | nil => rfl
  | cons a l ih =>
    show (List.orderedInsert keyLe a (List.insertionSort keyLe l)).filter _ = _
    rw [filter_key_orderedInsert k a (List.insertionSort keyLe l), List.filter_cons]
    by_cases h : (timeKey a == k) = true
    · rw [if_pos h, if_pos h]
      exact congrArg (a :: .) ih
    · rw [if_neg h, if_neg h]
      exact ih

/-! ### Basic lemmas on the comprehension combinators -/

theorem mapOption_eq_some_map {α β : Type} (f : α → Option β) (g : α → β) :
    ∀ l : List α, (∀ a ∈ l, f a = some (g a)) → mapOption f l = some (l.map g)
  | [], _ => rfl
  | a :: l, h => by
    have ha : f a = some (g a) := h a (List.mem_cons_self a l)
    have hl : mapOption f l = some (l.map g) :=
      mapOption_eq_some_map f g l (fun x hx => h x (List.mem_cons_of_mem a hx))
    simp [mapOption, ha, hl]

theorem mapOption_eq_none {α β : Type} (f : α → Option β) :
    ∀ l : List α, (∃ a ∈ l, f a = none) → mapOption f l = none
  | a :: l, h => by
    obtain ⟨x, hx, hfx⟩ := h
    rcases List.mem_cons.mp hx with rfl | hx'
    · simp [mapOption, hfx]
    · cases hfa : f a with
      | none => simp [mapOption, hfa]
      | some b => simp [mapOption, hfa, mapOption_eq_none f l ⟨x, hx', hfx⟩]

theorem mapOption_length {α β : Type} (f : α → Option β) :
    ∀ (l : List α) (bs : List β), mapOption f l = some bs → bs.length = l.length
  | [], bs, h => by simp [mapOption] at h; simp [← h]
  | a :: l, bs, h => by
    cases hfa : f a with
    | none => simp [mapOption, hfa] at h
    | some b =>
      cases hl : mapOption f l with
      | none => simp [mapOption, hfa, hl] at h
      | some bs' =>
        simp only [mapOption, hfa, hl] at h
        injection h with h
        subst h
        simp [mapOption_length f l bs' hl]

theorem mapOption_get_q {α β : Type} (f : α → Option β) :
    ∀ (l : List α) (bs : List β), mapOption f l = some bs →
      ∀ i : Nat, bs.get? i = (l.get? i).bind f
  | [], bs, h, i => by
    simp only [mapOption, Option.some.injEq] at h
    subst h
    simp
  | a :: l, bs, h, i => by
    cases hfa : f a with
    | none => simp [mapOption, hfa] at h
    | some b =>
      cases hl : mapOption f l with
      | none => simp [mapOption, hfa, hl] at h
      | some bs' =>
        simp only [mapOption, hfa, hl] at h
        injection h with h
        subst h
        cases i with
        | zero => simp [hfa]
        | succ i => simpa using mapOption_get_q f l bs' hl i

theorem mapExcept_eq_ok_map {α β : Type} (f : α → Except PyErr β) (g : α → β) :
    ∀ l : List α, (∀ a ∈ l, f a = .ok (g a)) → mapExcept f l = .ok (l.map g)
  | [], _ => rfl
  | a :: l, h => by
    have ha : f a = .ok (g a) := h a (List.mem_cons_self a l)
    have hl : mapExcept f l = .ok (l.map g) :=
      mapExcept_eq_ok_map f g l (fun x hx => h x (List.mem_cons_of_mem a hx))
    simp [mapExcept, ha, hl]

theorem mapExcept_cons_error {α β : Type} (f : α → Except PyErr β) (a : α)
    (l : List α) (e : PyErr) (hfa : f a = .error e) :
    mapExcept f (a :: l) = .error e := by
  simp [mapExcept, hfa]

theorem mapExcept_ok_elim {α β : Type} (f : α → Except PyErr β) (g : α → β)
    (hpt : ∀ a b, f a = .ok b → b = g a) :
    ∀ (l : List α) (bs : List β), mapExcept f l = .ok bs → bs = l.map g
  | [], bs, h => by simpa [mapExcept] using h.symm
  | a :: l, bs, h => by
    cases hfa : f a with
    | error e => simp [mapExcept, hfa] at h
    | ok b =>
      cases hl : mapExcept f l with
      | error e => simp [mapExcept, hfa, hl] at h
      | ok bs' =>
        simp only [mapExcept, hfa, hl] at h
        injection h with h
        subst h
        simp [hpt a b hfa, mapExcept_ok_elim f g hpt l bs' hl]

/-! ### Lemmas on `get_location_full` and the build loop -/

theorem cell_ok_of_mem {df : DataFrame} {c : String} (r : String → Val)
    (h : c ∈ df.cols) : df.cell r c = .ok (r c) := by
  simp [DataFrame.cell, h]

theorem cell_error_of_not_mem {df : DataFrame} {c : String} (r : String → Val)
    (h : c ∉ df.cols) : df.cell r c = .error .keyError := by
  simp [DataFrame.cell, h]

theorem cell_ok_val {df : DataFrame} {r : String → Val} {c : String} {v : Val}
    (h : df.cell r c = .ok v) : v = r c := by
  unfold DataFrame.cell at h
  split at h
  · injection h with h
    exact h.symm
  · cases h

theorem column_ok_of_mem {df : DataFrame} {c : String} (h : c ∈ df.cols) :
    df.column c = .ok (df.rows.map (fun r => r c)) := by
  simp [DataFrame.column, h]

theorem column_error_of_not_mem {df : DataFrame} {c : String} (h : c ∉ df.cols) :
    df.column c = .error .keyError := by
  simp [DataFrame.column, h]

namespace LocationDatabase

theorem get_location_full_def (df : DataFrame) (name : Val) (index : Nat) :
    get_location_full df name index =
      match df.column "NAME" with
      | .error e => .error e
      | .ok _ =>
        match df.rows.filter (fun r => r "NAME" == name) with
        | [] => .error .indexError
        | row :: rest =>
          match df.cell row "LAT" with
          | .error e => .error e
          | .ok lat =>
            match df.cell row "LONG" with
            | .error e => .error e
            | .ok lng =>
              match mapExcept (tupleOfRow df) (row :: rest) with
              | .error e => .error e
              | .ok values =>
                .ok { index := index, name := name, coordinates := (lat, lng),
                      traces := sortByTime values } := rfl

theorem tupleOfRow_ok {df : DataFrame} {r : String → Val} {b : List Val}
    (h : tupleOfRow df r = .ok b) : b = rowTuple r := by
  unfold tupleOfRow at h
  cases h1 : df.cell r "ABS_TIME" with
  | error e => rw [h1] at h; cases h
  | ok t =>
    rw [h1] at h
    cases h2 : df.cell r "NBBIKES" with
    | error e => rw [h2] at h; cases h
    | ok bb =>
      rw [h2] at h
      cases h3 : df.cell r "NBEMPTYDOCKS" with
      | error e => rw [h3] at h; cases h
      | ok d =>
        rw [h3] at h
        injection h with h
        rw [← h, cell_ok_val h1, cell_ok_val h2, cell_ok_val h3, rowTuple]

theorem tupleOfRow_ok_of_cols {df : DataFrame} (r : String → Val)
    (ht : "ABS_TIME" ∈ df.cols) (hb : "NBBIKES" ∈ df.cols)
    (hd : "NBEMPTYDOCKS" ∈ df.cols) :
    tupleOfRow df r = .ok (rowTuple r) := by
  unfold tupleOfRow
  rw [cell_ok_of_mem r ht, cell_ok_of_mem r hb, cell_ok_of_mem r hd]
  rfl

/-- Inversion: any `Location` successfully built by `get_location_full`
carries the given index and name, and its trace is the stable timestamp
sort of the matching rows' tuples. -/
theorem get_location_full_ok {df : DataFrame} {name : Val} {i : Nat}
    {loc : Location} (h : get_location_full df name i = .ok loc) :
    loc.index = i ∧ loc.name = name ∧
      loc.traces = sortByTime (stationTuples df name) := by
  rw [get_location_full_def] at h
  cases hcol : df.column "NAME" with
  | error e => rw [hcol] at h; cases h
  | ok colvals =>
    rw [hcol] at h
    dsimp only at h
    cases hfil : df.rows.filter (fun r => r "NAME" == name) with
    | nil => rw [hfil] at h; cases h
    | cons row rest =>
      rw [hfil] at h
      dsimp only at h
      cases hlat : df.cell row "LAT" with
      | error e => rw [hlat] at h; cases h
      | ok lat =>
        rw [hlat] at h
        dsimp only at h
        cases hlng : df.cell row "LONG" with
        | error e => rw [hlng] at h; cases h
        | ok lng =>
          rw [hlng] at h
          dsimp only at h
          cases hmap : mapExcept (tupleOfRow df) (row :: rest) with
          | error e => rw [hmap] at h; cases h
          | ok values =>
            rw [hmap] at h
            dsimp only at h
            injection h with h
            have hv : values = (row :: rest).map rowTuple :=
              mapExcept_ok_elim (tupleOfRow df) rowTuple
                (fun a b hab => tupleOfRow_ok hab) (row :: rest) values hmap
            rw [← h]
            refine ⟨rfl, rfl, ?_⟩
            show sortByTime values = sortByTime (stationTuples df name)
            rw [hv, stationTuples, hfil]

/-- Success: with all required columns present and a name that occurs in
the table, `get_location_full` builds exactly the expected record. -/
theorem get_location_full_ok_of_cols {df : DataFrame} {name : Val} (i : Nat)
    (hcols : ∀ c ∈ requiredCols, c ∈ df.cols)
    (hname : name ∈ df.rows.map (fun r => r "NAME")) :
    ∃ row rest, df.rows.filter (fun r => r "NAME" == name) = row :: rest ∧
      get_location_full df name i =
        .ok { index := i, name := name,
              coordinates := (row "LAT", row "LONG"),
              traces := sortByTime (stationTuples df name) } := by
  obtain ⟨r, hr, hrname⟩ := List.mem_map.mp hname
  have hne : df.rows.filter (fun r => r "NAME" == name) ≠ [] :=
    List.ne_nil_of_mem (List.mem_filter.mpr ⟨hr, by simp [hrname]⟩)
  cases hfil : df.rows.filter (fun r => r "NAME" == name) with
  | nil => exact absurd hfil hne
  | cons row rest =>
    refine ⟨row, rest, rfl, ?_⟩
    have hNAME : "NAME" ∈ df.cols := hcols _ (by simp [requiredCols])
    have hLAT : "LAT" ∈ df.cols := hcols _ (by simp [requiredCols])
    have hLONG : "LONG" ∈ df.cols := hcols _ (by simp [requiredCols])
    have hTIME : "ABS_TIME" ∈ df.cols := hcols _ (by simp [requiredCols])
    have hBIKES : "NBBIKES" ∈ df.cols := hcols _ (by simp [requiredCols])
    have hDOCKS : "NBEMPTYDOCKS" ∈ df.cols := hcols _ (by simp [requiredCols])
    rw [get_location_full_def, column_ok_of_mem hNAME]
    dsimp only
    rw [hfil]
    dsimp only
    rw [cell_ok_of_mem row hLAT]
    dsimp only
    rw [cell_ok_of_mem row hLONG]
    dsimp only
    rw [mapExcept_eq_ok_map (tupleOfRow df) rowTuple (row :: rest)
      (fun a _ => tupleOfRow_ok_of_cols a hTIME hBIKES hDOCKS)]
    dsimp only
    rw [stationTuples, hfil]

/-- The loop only ever appends: running it from `db` yields `db` followed
by whatever it produces from the empty accumulator. -/
theorem buildLoop_shift (df : DataFrame) :
    ∀ (names : List Val) (db : List Location) (n : Nat),
      buildLoop df db names n =
        (db ++ (buildLoop df [] names n).1, (buildLoop df [] names n).2) := by
  intro names
  induction names with
  | nil => intro db n; simp [buildLoop]
  | cons name rest ih =>
    intro db n
    cases hglf : get_location_full df name n with
    | error e => simp [buildLoop, hglf]
    | ok loc =>
      simp only [buildLoop, hglf, List.nil_append]
      rw [ih (db ++ [loc]) (n + 1), ih [loc] (n + 1), List.append_assoc]

/-- With all required columns present, the loop succeeds and produces one
location per name, named and indexed in order. -/
theorem buildLoop_spec (df : DataFrame)
    (hcols : ∀ c ∈ requiredCols, c ∈ df.cols) :
    ∀ (names : List Val) (n : Nat),
      (∀ x ∈ names, x ∈ df.rows.map (fun r => r "NAME")) →
      ∃ locs, buildLoop df [] names n = (locs, none) ∧
        locs.map (fun a => a.name) = names ∧
        locs.map (fun a => a.index) = List.range' n names.length ∧
        ∀ loc ∈ locs, loc.traces = sortByTime (stationTuples df loc.name) := by
  intro names
  induction names with
  | nil =>
    intro n _
    exact ⟨[], rfl, rfl, rfl, by intro loc h; cases h⟩
  | cons name rest ih =>
    intro n hnm
    obtain ⟨row, rrest, hfil, hok⟩ :=
      @get_location_full_ok_of_cols df name n hcols
        (hnm name (List.mem_cons_self name rest))
    obtain ⟨locs, hloop, hnames, hidx, htr⟩ :=
      ih (n + 1) (fun x hx => hnm x (List.mem_cons_of_mem name hx))
    refine ⟨{ index := n, name := name,
              coordinates := (row "LAT", row "LONG"),
              traces := sortByTime (stationTuples df name) } :: locs, ?_, ?_, ?_, ?_⟩
    · simp only [buildLoop, hok, List.nil_append]
      rw [buildLoop_shift df, hloop]
      rfl
    · simp [hnames]
    · simp [hidx, List.range'_succ]
    · intro loc hloc
      rcases List.mem_cons.mp hloc with rfl | hloc'
      · rfl
      · exact htr loc hloc'

end LocationDatabase

theorem mapOption_exists_of_forall {α β : Type} (f : α → Option β) :
    ∀ l : List α, (∀ a ∈ l, (f a).isSome) → ∃ bs, mapOption f l = some bs
  | [], _ => ⟨[], rfl⟩
  | a :: l, h => by
    obtain ⟨b, hb⟩ := Option.isSome_iff_exists.mp (h a (List.mem_cons_self a l))
    obtain ⟨bs, hbs⟩ :=
      mapOption_exists_of_forall f l (fun x hx => h x (List.mem_cons_of_mem a hx))
    exact ⟨b :: bs, by simp [mapOption, hb, hbs]⟩

theorem pyGet_natCast {α : Type} (l : List α) (t : Nat) :
    pyGet l (t : Int) = l.get? t := by
  rw [pyGet, if_pos (Int.natCast_nonneg t), Int.toNat_natCast]

namespace LocationDatabase

/-- Every location in the loop's output either was already in the
accumulator or was built by a successful `get_location_full` call. -/
theorem buildLoop_mem {df : DataFrame} :
    ∀ (names : List Val) (db : List Location) (n : Nat) (loc : Location),
      loc ∈ (buildLoop df db names n).1 →
      loc ∈ db ∨ ∃ name i, get_location_full df name i = .ok loc := by
  intro names
  induction names with
  | nil => intro db n loc h; exact Or.inl h
  | cons name rest ih =>
    intro db n loc h
    cases hglf : get_location_full df name n with
    | error e =>
      rw [buildLoop, hglf] at h
      exact Or.inl h
    | ok loc' =>
      rw [buildLoop, hglf] at h
      rcases ih (db ++ [loc']) (n + 1) loc h with hin | hex
      · rcases List.mem_append.mp hin with hdb | hone
        · exact Or.inl hdb
        · rcases List.mem_singleton.mp hone with rfl
          exact Or.inr ⟨name, n, hglf⟩
      · exact Or.inr hex

/-- `generate_from_df` only ever appends to the received database. -/
theorem generate_from_df_shift (db : List Location) (df : DataFrame) :
    generate_from_df db df =
      (db ++ (generate_from_df [] df).1, (generate_from_df [] df).2) := by
  unfold generate_from_df
  cases hcol : df.column "NAME" with
  | error e => simp
  | ok names => exact buildLoop_shift df (uniqueFirst names) db 0

/-- Membership inversion for the bulk build from the empty database. -/
theorem generate_from_df_mem {df : DataFrame} {loc : Location}
    (h : loc ∈ (generate_from_df [] df).1) :
    ∃ name i, get_location_full df name i = .ok loc := by
  unfold generate_from_df at h
  cases hcol : df.column "NAME" with
  | error e => rw [hcol] at h; cases h
  | ok names =>
    rw [hcol] at h
    rcases buildLoop_mem (uniqueFirst names) [] 0 loc h with hin | hex
    · cases hin
    · exact hex

/-- If one of the trace columns is absent, building a row tuple raises
`KeyError`. -/
theorem tupleOfRow_error_of_missing {df : DataFrame} (r : String → Val)
    (h : "ABS_TIME" ∉ df.cols ∨ "NBBIKES" ∉ df.cols ∨ "NBEMPTYDOCKS" ∉ df.cols) :
    tupleOfRow df r = .error .keyError := by
  unfold tupleOfRow
  by_cases ht : "ABS_TIME" ∈ df.cols
  · rw [cell_ok_of_mem r ht]
    by_cases hb : "NBBIKES" ∈ df.cols
    · rw [cell_ok_of_mem r hb]
      by_cases hd : "NBEMPTYDOCKS" ∈ df.cols
      · rcases h with h | h | h <;> contradiction
      · rw [cell_error_of_not_mem r hd]
    · rw [cell_error_of_not_mem r hb]
  · rw [cell_error_of_not_mem r ht]

/-- If `NAME` is present but some other required column is absent,
`get_location_full` on the first row's name raises `KeyError`. -/
theorem get_location_full_error_of_missing {df : DataFrame}
    {r0 : String → Val} {rs : List (String → Val)} (hrows : df.rows = r0 :: rs)
    (hNAME : "NAME" ∈ df.cols)
    (hmiss : "LAT" ∉ df.cols ∨ "LONG" ∉ df.cols ∨ "ABS_TIME" ∉ df.cols ∨
      "NBBIKES" ∉ df.cols ∨ "NBEMPTYDOCKS" ∉ df.cols) :
    get_location_full df (r0 "NAME") 0 = .error .keyError := by
  rw [get_location_full_def, column_ok_of_mem hNAME]
  dsimp only
  rw [hrows, List.filter_cons_of_pos (by simp)]
  dsimp only
  by_cases hLAT : "LAT" ∈ df.cols
  · rw [cell_ok_of_mem r0 hLAT]
    dsimp only
    by_cases hLONG : "LONG" ∈ df.cols
    · rw [cell_ok_of_mem r0 hLONG]
      dsimp only
      have htup : tupleOfRow df r0 = .error .keyError := by
        apply tupleOfRow_error_of_missing
        rcases hmiss with h | h | h | h | h
        · contradiction
        · contradiction
        · exact Or.inl h
        · exact Or.inr (Or.inl h)
        · exact Or.inr (Or.inr h)
      rw [mapExcept_cons_error (tupleOfRow df) r0 _ _ htup]
    · rw [cell_error_of_not_mem r0 hLONG]
  · rw [cell_error_of_not_mem r0 hLAT]

end LocationDatabase

/-- Indexing into a `flatMap` over `range'` whose pieces have equal length. -/
theorem flatMap_range_get_q {β : Type} (f : Nat → List β) (m : Nat)
    (hlen : ∀ k, (f k).length = m) :
    ∀ (n s i j : Nat), i < n → j < m →
      ((List.range' s n).flatMap f).get? (i * m + j) = (f (s + i)).get? j := by
  intro n
  induction n with
  | zero => intro s i j hi; cases hi
  | succ n ih =>
    intro s i j hi hj
    rw [List.range'_succ]
    show ((f s ++ (List.range' (s + 1) n).flatMap f).get? (i * m + j)) = _
    cases i with
    | zero =>
      rw [Nat.zero_mul, Nat.zero_add]
      rw [List.get?_append (by rw [hlen s]; exact hj), Nat.add_zero]
    | succ i =>
      have harith : (i + 1) * m + j = (f s).length + (i * m + j) := by
        rw [hlen s, Nat.succ_mul]
        ring
      rw [harith, List.get?_append_right (Nat.le_add_right _ _),
        Nat.add_sub_cancel_left]
      rw [ih (s + 1) i j (Nat.lt_of_succ_lt_succ hi) hj]
      have heq : s + 1 + i = s + (i + 1) := by omega
      rw [heq]

/-! ### The claims -/

/-- C8: for all locations `a` and `b`, `a.distance(b) == b.distance(a)` and
`a.distance(a) == 0`, with the geodesic provider modelled as an external
capability that is symmetric and zero on equal coordinate pairs. -/
theorem claim8_distance_symm_self (geo : Val × Val → Val × Val → ℚ)
    (hsym : ∀ p q, geo p q = geo q p) (hself : ∀ p, geo p p = 0)
    (a b : Location) :
    Location.distance geo a b = Location.distance geo b a ∧
      Location.distance geo a a = 0 :=
  ⟨hsym _ _, hself _⟩

theorem claim8_witness :
    (∀ p q, geoW p q = geoW q p) ∧ (∀ p, geoW p p = 0) ∧
      (Location.distance geoW locA locArity2 =
          Location.distance geoW locArity2 locA ∧
        Location.distance geoW locA locA = 0) := by
  have hsym : ∀ p q, geoW p q = geoW q p := by
    intro p q
    unfold geoW
    rcases eq_or_ne p q with rfl | h
    · rfl
    · rw [if_neg h, if_neg (Ne.symm h)]
  have hself : ∀ p, geoW p p = 0 := by
    intro p
    simp [geoW]
  exact ⟨hsym, hself, claim8_distance_symm_self geoW hsym hself locA locArity2⟩

/-- C9: `get_temporal_snapshot` never reads the database: any two databases
give the same output for the same `(result, time)`, and a successful call
returns one entry per station of `result`, whatever the database length. -/
theorem claim9_snapshot_ignores_db {α : Type} (db1 db2 : List Location)
    (result : List (List α)) (time : Int) :
    LocationDatabase.get_temporal_snapshot db1 result time =
        LocationDatabase.get_temporal_snapshot db2 result time ∧
      ∀ out, LocationDatabase.get_temporal_snapshot db1 result time = some out →
        out.length = result.length := by
  refine ⟨rfl, ?_⟩
  intro out h
  exact mapOption_length _ _ _ h

theorem claim9_witness :
    LocationDatabase.get_temporal_snapshot ([] : List Location)
        [[(1 : ℚ), 2], [3, 4]] 0 =
      LocationDatabase.get_temporal_snapshot dbW [[(1 : ℚ), 2], [3, 4]] 0 ∧
      ([(1 : ℚ), 3] : List ℚ).length = ([[(1 : ℚ), 2], [3, 4]] : List (List ℚ)).length :=
  ⟨(claim9_snapshot_ignores_db [] dbW [[(1 : ℚ), 2], [3, 4]] 0).1,
    (claim9_snapshot_ignores_db [] dbW [[(1 : ℚ), 2], [3, 4]] 0).2 [1, 3] (by rfl)⟩

/-- C5: on a result tensor whose rows all have more than `t` entries,
`get_temporal_snapshot` at time step `t` returns one entry per station in
order, the `i`-th entry being `result[i][t]`. -/
theorem claim5_snapshot_in_range {α : Type} (db : List Location)
    (result : List (List α)) (t : Nat)
    (hlen : result.length = db.length)
    (hin : ∀ l ∈ result, t < l.length) :
    ∃ out, LocationDatabase.get_temporal_snapshot db result (t : Int) = some out ∧
      out.length = result.length ∧
      ∀ i : Nat, out.get? i = (result.get? i).bind (fun row => row.get? t) := by
  have hsome : ∀ l ∈ result, (pyGet l (t : Int)).isSome := by
    intro l hl
    rw [pyGet_natCast]
    rw [Option.isSome_iff_exists]
    exact ⟨_, List.get?_eq_get (hin l hl)⟩
  obtain ⟨out, hout⟩ :=
    mapOption_exists_of_forall (fun l => pyGet l (t : Int)) result hsome
  refine ⟨out, hout, mapOption_length _ _ _ hout, ?_⟩
  intro i
  rw [mapOption_get_q _ _ _ hout i]
  cases hres : result.get? i with
  | none => rfl
  | some row => simp [pyGet_natCast]

theorem claim5_witness :
    (([[(10 : ℚ), 11, 12], [20, 21, 22]] : List (List ℚ)).length = dbWpair.length ∧
      ∀ l ∈ ([[(10 : ℚ), 11, 12], [20, 21, 22]] : List (List ℚ)), 1 < l.length) ∧
      ∃ out, LocationDatabase.get_temporal_snapshot dbWpair
          [[(10 : ℚ), 11, 12], [20, 21, 22]] ((1 : Nat) : Int) = some out ∧
        out.length = ([[(10 : ℚ), 11, 12], [20, 21, 22]] : List (List ℚ)).length ∧
        ∀ i : Nat, out.get? i =
          (([[(10 : ℚ), 11, 12], [20, 21, 22]] : List (List ℚ)).get? i).bind
            (fun row => row.get? 1) :=
  ⟨⟨by decide, by decide⟩,
    claim5_snapshot_in_range dbWpair [[(10 : ℚ), 11, 12], [20, 21, 22]] 1
      (by decide) (by decide)⟩

/-- C6 (amended): `get_temporal_snapshot` fails with an index-range error
whenever the (non-negative) time step is out of range for some station of
`result`; no check against the database's length is performed. -/
theorem claim6_amended_snapshot_out_of_range {α : Type} (db : List Location)
    (result : List (List α)) (time : Int) (h0 : 0 ≤ time)
    (hout : ∃ l ∈ result, l.length ≤ time.toNat) :
    LocationDatabase.get_temporal_snapshot db result time = none := by
  obtain ⟨l, hl, hlen⟩ := hout
  apply mapOption_eq_none
  refine ⟨l, hl, ?_⟩
  rw [pyGet, if_pos h0]
  exact List.get?_eq_none.mpr hlen

/-- C6, refuted as stated: a station-count mismatch between `result` and the
database raises nothing — on the empty database and a one-station result the
call succeeds. -/
theorem claim6_counterexample :
    LocationDatabase.get_temporal_snapshot ([] : List Location)
        [[((0 : ℚ), (5 : ℚ))]] 0 = some [((0 : ℚ), (5 : ℚ))] ∧
      ([[((0 : ℚ), (5 : ℚ))]] : List (List (ℚ × ℚ))).length ≠
        ([] : List Location).length := by
  exact ⟨rfl, by decide⟩

theorem claim6_witness :
    ((0 : Int) ≤ 3 ∧ ∃ l ∈ ([[(1 : ℚ), 2], [3, 4]] : List (List ℚ)),
        l.length ≤ (3 : Int).toNat) ∧
      LocationDatabase.get_temporal_snapshot dbW [[(1 : ℚ), 2], [3, 4]] 3 = none :=
  ⟨⟨by decide, by decide⟩,
    claim6_amended_snapshot_out_of_range dbW [[(1 : ℚ), 2], [3, 4]] 3 (by decide)
      ⟨[1, 2], by decide⟩⟩

/-- C4, refuted as stated: on a trace of arity 1 (one metric per timestamp)
`get_trace_values` raises `IndexError` instead of returning the metric
sub-sequences (the tails of the tuples). -/
theorem claim4_counterexample :
    Location.get_trace_values locArity1 = none ∧
      locArity1.traces.map List.tail = [[Val.num 5]] :=
  ⟨rfl, rfl⟩

/-- C4 (amended): `get_trace_values` returns the metric fields (the tuple
minus its timestamp) exactly for traces of arity 2 — tuples of length 3 —
the only shape the bulk build produces. -/
theorem claim4_amended_trace_values (loc : Location)
    (h3 : ∀ v ∈ loc.traces, v.length = 3) :
    Location.get_trace_values loc = some (loc.traces.map List.tail) := by
  unfold Location.get_trace_values
  apply mapOption_eq_some_map _ List.tail
  intro v hv
  obtain ⟨a, b, c, rfl⟩ := List.length_eq_three.mp (h3 v hv)
  rfl

theorem claim4_witness :
    (∀ v ∈ locArity2.traces, v.length = 3) ∧
      Location.get_trace_values locArity2 = some (locArity2.traces.map List.tail) :=
  ⟨by decide, claim4_amended_trace_values locArity2 (by decide)⟩

/-- C3: `generate_graph` returns exactly one graph, an edge list with one
record `(db[i].index, db[j].index, distance)` for every ordered pair of
positions, `n * n` records in all; when the geodesic provider is zero on
equal coordinates every self-edge has distance 0. -/
theorem claim3_generate_graph (geo : Val × Val → Val × Val → ℚ)
    (db : List Location) :
    ∃ g, LocationDatabase.generate_graph geo db = [g] ∧
      g.length = db.length * db.length ∧
      (∀ i j : Nat, ∀ hi : i < db.length, ∀ hj : j < db.length,
        g.get? (i * db.length + j) =
          some ((db.get ⟨i, hi⟩).index, (db.get ⟨j, hj⟩).index,
            Location.distance geo (db.get ⟨i, hi⟩) (db.get ⟨j, hj⟩))) ∧
      ((∀ c, geo c c = 0) → ∀ i : Nat, ∀ hi : i < db.length,
        g.get? (i * db.length + i) =
          some ((db.get ⟨i, hi⟩).index, (db.get ⟨i, hi⟩).index, 0)) := by
  set n := db.length with hn
  set f : Nat → List (Nat × Nat × ℚ) := fun l_idx =>
    (List.range n).map (fun r_idx =>
      ((db.getD l_idx default).index, (db.getD r_idx default).index,
        Location.distance geo (db.getD l_idx default) (db.getD r_idx default)))
    with hf
  have hflen : ∀ k, (f k).length = n := by
    intro k
    rw [hf]
    simp
  have hmain : ∀ i j : Nat, ∀ hi : i < n, ∀ hj : j < n,
      ((List.range n).flatMap f).get? (i * n + j) =
        some ((db.get ⟨i, hi⟩).index, (db.get ⟨j, hj⟩).index,
          Location.distance geo (db.get ⟨i, hi⟩) (db.get ⟨j, hj⟩)) := by
    intro i j hi hj
    rw [List.range_eq_range', flatMap_range_get_q f n hflen n 0 i j hi hj,
      Nat.zero_add, hf]
    rw [List.get?_map, List.get?_range hj]
    have hgi : db[i]? = some db[i] := List.getElem?_eq_getElem hi
    have hgj : db[j]? = some db[j] := List.getElem?_eq_getElem hj
    simp [hgi, hgj]
  refine ⟨(List.range n).flatMap f, rfl, ?_, hmain, ?_⟩
  · rw [List.length_flatMap]
    have hconst : List.map (List.length ∘ f) (List.range n) =
        List.map (fun _ => n) (List.range n) :=
      List.map_congr_left (fun a _ => hflen a)
    rw [hconst, List.map_const', List.length_range, List.sum_replicate, smul_eq_mul]
  · intro hself i hi
    rw [hmain i i hi hi]
    have : Location.distance geo (db.get ⟨i, hi⟩) (db.get ⟨i, hi⟩) = 0 := hself _
    rw [this]

theorem claim3_witness :
    (∀ c, geoW c c = 0) ∧
      ∃ g, LocationDatabase.generate_graph geoW dbW = [g] ∧
        g.length = dbW.length * dbW.length ∧
        (∀ i j : Nat, ∀ hi : i < dbW.length, ∀ hj : j < dbW.length,
          g.get? (i * dbW.length + j) =
            some ((dbW.get ⟨i, hi⟩).index, (dbW.get ⟨j, hj⟩).index,
              Location.distance geoW (dbW.get ⟨i, hi⟩) (dbW.get ⟨j, hj⟩))) ∧
        ((∀ c, geoW c c = 0) → ∀ i : Nat, ∀ hi : i < dbW.length,
          g.get? (i * dbW.length + i) =
            some ((dbW.get ⟨i, hi⟩).index, (dbW.get ⟨i, hi⟩).index, 0)) :=
  ⟨fun c => by simp [geoW], claim3_generate_graph geoW dbW⟩

/-- C1: building from an empty database gives one `Location` per distinct
station name, in order of first appearance in the table, with
`db[i].index == i`, no two entries sharing a name or an index. -/
theorem claim1_generate_from_df_invariant (df : DataFrame)
    (hcols : ∀ c ∈ requiredCols, c ∈ df.cols) :
    ∃ locs, LocationDatabase.generate_from_df [] df = (locs, none) ∧
      locs.map (fun a => a.name) = uniqueFirst (df.rows.map (fun r => r "NAME")) ∧
      (∀ x, x ∈ locs.map (fun a => a.name) ↔ x ∈ df.rows.map (fun r => r "NAME")) ∧
      (locs.map (fun a => a.name)).Nodup ∧
      locs.map (fun a => a.index) = List.range locs.length ∧
      List.Pairwise (fun a b =>
        firstIdx (df.rows.map (fun r => r "NAME")) a.name <
          firstIdx (df.rows.map (fun r => r "NAME")) b.name) locs := by
  have hNAME : "NAME" ∈ df.cols := hcols _ (by simp [requiredCols])
  obtain ⟨locs, hloop, hnames, hidx, htr⟩ :=
    LocationDatabase.buildLoop_spec df hcols
      (uniqueFirst (df.rows.map (fun r => r "NAME"))) 0
      (fun x hx => (mem_uniqueFirst _ _).mp hx)
  have hgen : LocationDatabase.generate_from_df [] df = (locs, none) := by
    unfold LocationDatabase.generate_from_df
    rw [column_ok_of_mem hNAME]
    exact hloop
  have hlen : locs.length = (uniqueFirst (df.rows.map (fun r => r "NAME"))).length := by
    rw [← hnames, List.length_map]
  refine ⟨locs, hgen, hnames, ?_, ?_, ?_, ?_⟩
  · intro x
    rw [hnames]
    exact mem_uniqueFirst _ x
  · rw [hnames]
    exact uniqueFirst_nodup _
  · rw [hidx, hlen, List.range_eq_range']
  · have hp := uniqueFirst_pairwise_firstIdx (df.rows.map (fun r => r "NAME"))
    rw [← hnames] at hp
    exact hp.of_map (fun a : Location => a.name) (fun a b h => h)

theorem claim1_witness :
    (∀ c ∈ requiredCols, c ∈ dfABC.cols) ∧
      ∃ locs, LocationDatabase.generate_from_df [] dfABC = (locs, none) ∧
        locs.map (fun a => a.name) =
          uniqueFirst (dfABC.rows.map (fun r => r "NAME")) ∧
        (∀ x, x ∈ locs.map (fun a => a.name) ↔
          x ∈ dfABC.rows.map (fun r => r "NAME")) ∧
        (locs.map (fun a => a.name)).Nodup ∧
        locs.map (fun a => a.index) = List.range locs.length ∧
        List.Pairwise (fun a b =>
          firstIdx (dfABC.rows.map (fun r => r "NAME")) a.name <
            firstIdx (dfABC.rows.map (fun r => r "NAME")) b.name) locs :=
  ⟨by decide, claim1_generate_from_df_invariant dfABC (by decide)⟩

/-- C2: every location built by the bulk build has its trace stably sorted
by timestamp — `get_trace_time()` is non-decreasing, and rows with equal
timestamps keep their original table order. -/
theorem claim2_trace_sorted (df : DataFrame) (loc : Location)
    (hmem : loc ∈ (LocationDatabase.generate_from_df [] df).1) :
    (∃ ts, Location.get_trace_time loc = some ts ∧ ts.Sorted (· ≤ ·)) ∧
      ∀ k, loc.traces.filter (fun v => timeKey v == k) =
        (stationTuples df loc.name).filter (fun v => timeKey v == k) := by
  obtain ⟨name, i, hglf⟩ := LocationDatabase.generate_from_df_mem hmem
  obtain ⟨hidx, hname, htr⟩ := LocationDatabase.get_location_full_ok hglf
  rw [← hname] at htr
  constructor
  · have hne : ∀ v ∈ loc.traces, v ≠ [] := by
      intro v hv
      rw [htr] at hv
      obtain ⟨r, hr, hveq⟩ := List.mem_map.mp (mem_sortByTime.mp hv)
      rw [← hveq]
      simp [rowTuple]
    have hsome : Location.get_trace_time loc = some (loc.traces.map timeKey) := by
      unfold Location.get_trace_time
      apply mapOption_eq_some_map _ timeKey
      intro v hv
      cases v with
      | nil => exact absurd rfl (hne [] hv)
      | cons a t => rfl
    refine ⟨loc.traces.map timeKey, hsome, ?_⟩
    rw [htr]
    have hs := sortByTime_sorted (stationTuples df loc.name)
    exact List.pairwise_map.mpr hs
  · intro k
    rw [htr]
    exact filter_key_sortByTime k _

theorem claim2_witness :
    locA ∈ (LocationDatabase.generate_from_df [] dfABC).1 ∧
      ((∃ ts, Location.get_trace_time locA = some ts ∧ ts.Sorted (· ≤ ·)) ∧
        ∀ k, locA.traces.filter (fun v => timeKey v == k) =
          (stationTuples dfABC locA.name).filter (fun v => timeKey v == k)) :=
  ⟨by decide, claim2_trace_sorted dfABC locA (by decide)⟩

/-- C7, refuted as stated: on a table with no rows that lacks the required
`LAT` column, the bulk build succeeds silently instead of failing. -/
theorem claim7_counterexample :
    ("LAT" ∈ requiredCols ∧ "LAT" ∉ dfNoRows.cols) ∧
      LocationDatabase.generate_from_df [] dfNoRows = ([], none) :=
  ⟨⟨by decide, by decide⟩, rfl⟩

/-- C7 (amended): if the name column is absent, or some other required
column is absent and the table has at least one row, the bulk build fails
with `KeyError` before constructing any `Location`, leaving `db` unchanged. -/
theorem claim7_amended_schema_error (db : List Location) (df : DataFrame)
    (h : "NAME" ∉ df.cols ∨ (df.rows ≠ [] ∧ ∃ c ∈ requiredCols, c ∉ df.cols)) :
    LocationDatabase.generate_from_df db df = (db, some PyErr.keyError) := by
  by_cases hNAME : "NAME" ∈ df.cols
  · rcases h with hn | ⟨hrows, c, hcreq, hcmiss⟩
    · exact absurd hNAME hn
    · have hc5 : "LAT" ∉ df.cols ∨ "LONG" ∉ df.cols ∨ "ABS_TIME" ∉ df.cols ∨
          "NBBIKES" ∉ df.cols ∨ "NBEMPTYDOCKS" ∉ df.cols := by
        simp only [requiredCols, List.mem_cons, List.not_mem_nil, or_false] at hcreq
        rcases hcreq with rfl | rfl | rfl | rfl | rfl | rfl
        · exact absurd hNAME hcmiss
        · exact Or.inl hcmiss
        · exact Or.inr (Or.inl hcmiss)
        · exact Or.inr (Or.inr (Or.inl hcmiss))
        · exact Or.inr (Or.inr (Or.inr (Or.inl hcmiss)))
        · exact Or.inr (Or.inr (Or.inr (Or.inr hcmiss)))
      cases hrows_eq : df.rows with
      | nil => exact absurd hrows_eq hrows
      | cons r0 rs =>
        have hglf := LocationDatabase.get_location_full_error_of_missing
          hrows_eq hNAME hc5
        unfold LocationDatabase.generate_from_df
        rw [column_ok_of_mem hNAME]
        dsimp only
        rw [hrows_eq, List.map_cons, uniqueFirst_cons]
        simp [LocationDatabase.buildLoop, hglf]
  · unfold LocationDatabase.generate_from_df
    rw [column_error_of_not_mem hNAME]

theorem claim7_witness :
    ("NAME" ∉ dfOnlyName.cols ∨
        (dfOnlyName.rows ≠ [] ∧ ∃ c ∈ requiredCols, c ∉ dfOnlyName.cols)) ∧
      LocationDatabase.generate_from_df [] dfOnlyName =
        ([], some PyErr.keyError) :=
  ⟨Or.inr ⟨List.cons_ne_nil _ _, "LAT", by decide, by decide⟩,
    claim7_amended_schema_error [] dfOnlyName
      (Or.inr ⟨List.cons_ne_nil _ _, "LAT", by decide, by decide⟩)⟩

/-- C10: a second bulk build on an already-populated database does not fail
and does not replace the contents — it appends, giving `2n` entries with
every name appearing twice and the index sequence `0..n-1` repeated. -/
theorem claim10_second_build_appends (df : DataFrame)
    (hcols : ∀ c ∈ requiredCols, c ∈ df.cols) :
    ∃ locs, LocationDatabase.generate_from_df [] df = (locs, none) ∧
      LocationDatabase.generate_from_df locs df = (locs ++ locs, none) ∧
      (locs ++ locs).length = 2 * locs.length ∧
      (locs ++ locs).map (fun a => a.name) =
        locs.map (fun a => a.name) ++ locs.map (fun a => a.name) ∧
      (locs ++ locs).map (fun a => a.index) =
        List.range locs.length ++ List.range locs.length := by
  have hNAME : "NAME" ∈ df.cols := hcols _ (by simp [requiredCols])
  obtain ⟨locs, hloop, hnames, hidx, htr⟩ :=
    LocationDatabase.buildLoop_spec df hcols
      (uniqueFirst (df.rows.map (fun r => r "NAME"))) 0
      (fun x hx => (mem_uniqueFirst _ _).mp hx)
  have hgen : LocationDatabase.generate_from_df [] df = (locs, none) := by
    unfold LocationDatabase.generate_from_df
    rw [column_ok_of_mem hNAME]
    exact hloop
  have hlen : locs.length = (uniqueFirst (df.rows.map (fun r => r "NAME"))).length := by
    rw [← hnames, List.length_map]
  have hidx' : locs.map (fun a => a.index) = List.range locs.length := by
    rw [hidx, hlen, List.range_eq_range']
  refine ⟨locs, hgen, ?_, ?_, List.map_append _ _ _, ?_⟩
  · rw [LocationDatabase.generate_from_df_shift, hgen]
  · rw [List.length_append, Nat.two_mul]
  · rw [List.map_append, hidx']

theorem claim10_witness :
    (∀ c ∈ requiredCols, c ∈ dfABC.cols) ∧
      ∃ locs, LocationDatabase.generate_from_df [] dfABC = (locs, none) ∧
        LocationDatabase.generate_from_df locs dfABC = (locs ++ locs, none) ∧
        (locs ++ locs).length = 2 * locs.length ∧
        (locs ++ locs).map (fun a => a.name) =
          locs.map (fun a => a.name) ++ locs.map (fun a => a.name) ∧
        (locs ++ locs).map (fun a => a.index) =
          List.range locs.length ++ List.range locs.length :=
  ⟨by decide, claim10_second_build_appends dfABC (by decide)⟩
